import Mathlib

/-
Verification of the MyPads data-consistency layer: a shallow embedding of
the pad model (model/pad.js), the credential verifier (auth.js) and the
invitation-token issuer (the mail module), together with proofs about the
behaviour of create/update/delete, secondary-index maintenance, attribute
normalization, token validity and password checking.

The key-value store, the common helpers (common.js), the user model
(model/user.js) and the configuration accessor are not among the source
files; where a definition stands in for one of them, its doc comment says
so and follows the specification text.
-/

/-- JavaScript runtime values, as far as the embedded modules inspect them:
undefined, null, booleans, numbers, strings and arrays. -/
inductive JSVal where
  | undefined
  | null
  | bool (b : Bool)
  | num (n : Int)
  | str (s : String)
  | arr (elems : List JSVal)

/-- The lodash isString test. -/
def JSVal.isString : JSVal → Bool
  | .str _ => true
  | _ => false

/-- The lodash isArray test. -/
def JSVal.isArray : JSVal → Bool
  | .arr _ => true
  | _ => false

/-- The lodash isBoolean test. -/
def JSVal.isBoolean : JSVal → Bool
  | .bool _ => true
  | _ => false

/-- JavaScript truthiness: undefined, null, false, 0 and the empty string
are falsy; every other value of the embedded fragment is truthy. -/
def JSVal.truthy : JSVal → Bool
  | .undefined => false
  | .null => false
  | .bool b => b
  | .num n => n != 0
  | .str s => s != ""
  | .arr _ => true

/-- Strict equality of a JavaScript value against a string literal, as in
the source comparison of p.visibility with a string constant. -/
def JSVal.eqStr : JSVal → String → Bool
  | .str s, t => s == t
  | _, _ => false

/-- String coercion used when a value is concatenated into a store key.
Only the string case is ever reached after required-field validation;
the remaining cases follow the usual JavaScript coercions (the array
case is an approximation and is never exercised by the theorems). -/
def JSVal.keyStr : JSVal → String
  | .str s => s
  | .undefined => "undefined"
  | .null => "null"
  | .bool b => if b then "true" else "false"
  | .num n => toString n
  | .arr _ => ""

/-- The lodash filter of an array value by isString, as used for the users
list; a non-array value contributes no entries. -/
def JSVal.stringEntries : JSVal → List JSVal
  | .arr l => l.filter JSVal.isString
  | _ => []

theorem JSVal.eqStr_true_iff (v : JSVal) (t : String) :
    v.eqStr t = true ↔ v = .str t := by
  cases v <;> simp [JSVal.eqStr]

/-- The params object received by pad.set: the fields the pad module reads. -/
structure PadParams where
  _id : JSVal
  name : JSVal
  group : JSVal
  visibility : JSVal
  users : JSVal
  password : JSVal
  readonly : JSVal

/-- The normalized pad attributes produced by pad.fn.assignProps. -/
structure PadProps where
  name : JSVal
  group : JSVal
  users : List JSVal
  visibility : JSVal
  password : JSVal
  readonly : JSVal

/-- The three allowed visibility values of the pad module. -/
def vVal : List String := ["restricted", "private", "public"]

/-- Embedding of pad.fn.assignProps: the users list is the string entries
of params.users when visibility is the string restricted and users is an
array, else empty; visibility is kept when it is one of the three allowed
strings, else null; password is kept when a string, else null; readonly is
kept when a boolean, else null. -/
def assignProps (p : PadParams) : PadProps :=
  { name := p.name
    group := p.group
    users :=
      if p.visibility.eqStr "restricted" && p.users.isArray then
        p.users.stringEntries
      else []
    visibility :=
      match p.visibility with
      | .str s => if s ∈ vVal then .str s else .null
      | _ => .null
    password :=
      match p.password with
      | .str s => .str s
      | _ => .null
    readonly :=
      match p.readonly with
      | .bool b => .bool b
      | _ => .null }

/-- Claim C4: for every params object with visibility equal to the string
restricted and an array users field, the users list computed by assignProps
is the input list filtered to its string entries; for any other visibility
value the computed users list is empty. -/
theorem claim_C4 (p : PadParams) :
    (∀ l : List JSVal, p.visibility = .str "restricted" → p.users = .arr l →
      (assignProps p).users = l.filter JSVal.isString) ∧
    (p.visibility ≠ .str "restricted" → (assignProps p).users = []) := by
  constructor
  · intro l hv hu
    simp [assignProps, hv, hu, JSVal.eqStr, JSVal.isArray, JSVal.stringEntries]
  · intro hv
    have he : p.visibility.eqStr "restricted" = false := by
      cases hr : p.visibility.eqStr "restricted"
      · rfl
      · exact absurd ((JSVal.eqStr_true_iff _ _).mp hr) hv
    simp [assignProps, he]

/-- Witness for claim C4 at concrete inputs: a restricted pad with a mixed
users array keeps exactly the string entries, and a public pad gets an
empty users list. -/
theorem claim_C4_witness :
    (assignProps ⟨.undefined, .str "Doc", .str "g1", .str "restricted",
        .arr [.str "u1", .num 3, .str "u2"], .undefined, .undefined⟩).users
      = [.str "u1", .str "u2"] ∧
    (assignProps ⟨.undefined, .str "Doc", .str "g1", .str "public",
        .arr [.str "u1"], .undefined, .undefined⟩).users = [] := by
  constructor
  · have h := (claim_C4 ⟨.undefined, .str "Doc", .str "g1", .str "restricted",
        .arr [.str "u1", .num 3, .str "u2"], .undefined, .undefined⟩).1
        [.str "u1", .num 3, .str "u2"] rfl rfl
    simpa using h
  · exact (claim_C4 ⟨.undefined, .str "Doc", .str "g1", .str "public",
        .arr [.str "u1"], .undefined, .undefined⟩).2 (by simp)

/-- Claim C5: assignProps keeps the visibility when it is a string equal to
one of restricted, private, public and yields null otherwise; keeps the
password when it is a string and yields null otherwise; keeps readonly when
it is a boolean and yields null otherwise. -/
theorem claim_C5 (p : PadParams) :
    ((∃ s, p.visibility = .str s ∧ s ∈ vVal) →
      (assignProps p).visibility = p.visibility) ∧
    ((¬ ∃ s, p.visibility = .str s ∧ s ∈ vVal) →
      (assignProps p).visibility = .null) ∧
    (∀ s, p.password = .str s → (assignProps p).password = p.password) ∧
    (p.password.isString = false → (assignProps p).password = .null) ∧
    (∀ b, p.readonly = .bool b → (assignProps p).readonly = p.readonly) ∧
    (p.readonly.isBoolean = false → (assignProps p).readonly = .null) := by
  refine ⟨?_, ?_, ?_, ?_, ?_, ?_⟩
  · rintro ⟨s, hs, hmem⟩
    simp [assignProps, hs, hmem]
  · intro hno
    unfold assignProps
    cases hv : p.visibility with
    | str s =>
      have : s ∉ vVal := fun hmem => hno ⟨s, hv, hmem⟩
      simp [this]
    | undefined => simp
    | null => simp
    | bool b => simp
    | num n => simp
    | arr l => simp
  · intro s hs
    simp [assignProps, hs]
  · intro hns
    unfold assignProps
    cases hv : p.password <;> simp_all [JSVal.isString]
  · intro b hb
    simp [assignProps, hb]
  · intro hnb
    unfold assignProps
    cases hv : p.readonly <;> simp_all [JSVal.isBoolean]

/-- Witness for claim C5 at concrete inputs: a private visibility is kept,
a numeric visibility becomes null, a string password is kept, an undefined
password becomes null, a boolean readonly is kept, a null readonly becomes
null. -/
theorem claim_C5_witness :
    (assignProps ⟨.undefined, .str "Doc", .str "g1", .str "private",
        .undefined, .str "pw", .bool true⟩).visibility = .str "private" ∧
    (assignProps ⟨.undefined, .str "Doc", .str "g1", .num 7,
        .undefined, .undefined, .null⟩).visibility = .null ∧
    (assignProps ⟨.undefined, .str "Doc", .str "g1", .str "private",
        .undefined, .str "pw", .bool true⟩).password = .str "pw" ∧
    (assignProps ⟨.undefined, .str "Doc", .str "g1", .num 7,
        .undefined, .undefined, .null⟩).password = .null ∧
    (assignProps ⟨.undefined, .str "Doc", .str "g1", .str "private",
        .undefined, .str "pw", .bool true⟩).readonly = .bool true ∧
    (assignProps ⟨.undefined, .str "Doc", .str "g1", .num 7,
        .undefined, .undefined, .null⟩).readonly = .null := by
  refine ⟨?_, ?_, ?_, ?_, ?_, ?_⟩
  · exact (claim_C5 ⟨.undefined, .str "Doc", .str "g1", .str "private",
        .undefined, .str "pw", .bool true⟩).1 ⟨"private", rfl, by decide⟩
  · exact (claim_C5 ⟨.undefined, .str "Doc", .str "g1", .num 7,
        .undefined, .undefined, .null⟩).2.1 (by rintro ⟨s, hs, _⟩; cases hs)
  · exact (claim_C5 ⟨.undefined, .str "Doc", .str "g1", .str "private",
        .undefined, .str "pw", .bool true⟩).2.2.1 "pw" rfl
  · exact (claim_C5 ⟨.undefined, .str "Doc", .str "g1", .num 7,
        .undefined, .undefined, .null⟩).2.2.2.1 rfl
  · exact (claim_C5 ⟨.undefined, .str "Doc", .str "g1", .str "private",
        .undefined, .str "pw", .bool true⟩).2.2.2.2.1 true rfl
  · exact (claim_C5 ⟨.undefined, .str "Doc", .str "g1", .num 7,
        .undefined, .undefined, .null⟩).2.2.2.2.2 rfl

/-- Error kinds of the specification taxonomy that the embedded pad
operations can signal. -/
inductive Err where
  | notFound
  | validation
  | refIntegrity
deriving Repr, DecidableEq

/-- Association-list lookup on string keys, the behaviour of the key-value
store reads. -/
def slookup {α : Type} : List (String × α) → String → Option α
  | [], _ => none
  | (k, v) :: rest, key => if k = key then some v else slookup rest key

/-- A group record as the pad module reads and writes it: its own id and
the pads secondary index (the remaining group fields are never touched by
the pad module). -/
structure GroupRec where
  _id : String
  pads : List String

/-- A stored pad record: the generated or preserved id together with the
normalized attributes. -/
structure PadStored where
  _id : String
  props : PadProps

/-- Modelled from the spec: the key-value store consumed by the pad module
(storage.js is not among the source files). The per-entity key spaces are
kept as three separate maps, which is what the distinct entity key
constants achieve in the source; user records are tracked by login only,
since the pad module checks only their existence. -/
structure Store where
  pads : List (String × PadStored)
  groups : List (String × GroupRec)
  userLogins : List String

def Store.getPad (s : Store) (k : String) : Option PadStored :=
  slookup s.pads k

def Store.setPad (s : Store) (k : String) (p : PadStored) : Store :=
  { s with pads := (k, p) :: s.pads }

def Store.delPad (s : Store) (k : String) : Store :=
  { s with pads := s.pads.filter (fun kv => kv.1 ≠ k) }

def Store.getGroup (s : Store) (k : String) : Option GroupRec :=
  slookup s.groups k

def Store.setGroup (s : Store) (k : String) (g : GroupRec) : Store :=
  { s with groups := (k, g) :: s.groups }

/-- Modelled from the spec: common.checkMultiExist / existsAll (common.js
is not among the source files) is true iff every referenced login exists
in the store. -/
def checkMultiExist (s : Store) (logins : List String) : Bool :=
  logins.all (fun l => s.userLogins.contains l)

/-- A required field of pad.set must be a non-empty string. -/
def requiredFieldOk : JSVal → Bool
  | .str s => s ≠ ""
  | _ => false

/-- Modelled from the spec: common.addSetInit / validateRequiredFields
(common.js is not among the source files) fails with ValidationError when
a required field is missing or empty; for pads the required fields are
name and group. -/
def addSetInitOk (params : PadParams) : Bool :=
  requiredFieldOk params.name && requiredFieldOk params.group

/-- Embedding of pad.fn.indexGroups: load the owning group record; fail
with NotFound when it is absent; on del remove the pad id from the pads
index (ld.pull removes every occurrence) and rewrite the group; otherwise
append the pad id when it is not yet present and rewrite the group, or do
nothing when it is already present. The rewrite goes to the key formed
from the _id field of the loaded group record, as in the source. -/
def indexGroups (del : Bool) (p : PadStored) (s : Store) : Except Err Store :=
  match s.getGroup p.props.group.keyStr, del with
  | none, _ => .error .notFound
  | some g, true =>
    .ok (s.setGroup g._id ⟨g._id, g.pads.filter (fun x => x ≠ p._id)⟩)
  | some g, false =>
    if p._id ∈ g.pads then .ok s
    else .ok (s.setGroup g._id ⟨g._id, g.pads ++ [p._id]⟩)

/-- Embedding of pad.fn.set: write the pad record first, then maintain the
group index; when the index step fails the pad write is already committed
and stays in the store. -/
def padFnSet (p : PadStored) (s : Store) : Except Err PadStored × Store :=
  let s1 := s.setPad p._id p
  match indexGroups false p s1 with
  | .error e => (.error e, s1)
  | .ok s2 => (.ok p, s2)

/-- Embedding of pad.fn.checkSet: when the computed users list is
non-empty, every referenced login must exist, else the operation fails
with the referential-integrity error some users not found; afterwards the
record is written by pad.fn.set. -/
def checkSet (p : PadStored) (s : Store) : Except Err PadStored × Store :=
  if p.props.users.length ≠ 0 then
    if checkMultiExist s (p.props.users.map JSVal.keyStr) then padFnSet p s
    else (.error .refIntegrity, s)
  else padFnSet p s

/-- Embedding of pad.set: validate the required fields, normalize the
attributes, then either the update path (params._id truthy: the pad must
already exist, else the error pad does not exist) or the create path (a
fresh generated id, passed here as newId). -/
def padSet (params : PadParams) (newId : String) (s : Store) :
    Except Err PadStored × Store :=
  if addSetInitOk params then
    let props := assignProps params
    if params._id.truthy then
      match s.getPad params._id.keyStr with
      | none => (.error .notFound, s)
      | some _ => checkSet ⟨params._id.keyStr, props⟩ s
    else
      checkSet ⟨newId, props⟩ s
  else (.error .validation, s)

/-- Embedding of pad.del: fetch and remove the pad record through the
get-and-delete primitive (fails with NotFound when the key is absent, in
which case nothing is removed), then clean the group secondary index with
the deleted record. -/
def padDel (key : String) (s : Store) : Except Err Unit × Store :=
  match s.getPad key with
  | none => (.error .notFound, s)
  | some p =>
    let s1 := s.delPad key
    match indexGroups true p s1 with
    | .error e => (.error e, s1)
    | .ok s2 => (.ok (), s2)

theorem slookup_cons_self {α : Type} (l : List (String × α)) (k : String) (v : α) :
    slookup ((k, v) :: l) k = some v := by
  simp [slookup]

theorem Store.getGroup_setPad (s : Store) (k : String) (p : PadStored)
    (x : String) : (s.setPad k p).getGroup x = s.getGroup x := rfl

theorem Store.getGroup_delPad (s : Store) (k : String) (x : String) :
    (s.delPad k).getGroup x = s.getGroup x := rfl

theorem Store.getPad_setGroup (s : Store) (k : String) (g : GroupRec)
    (x : String) : (s.setGroup k g).getPad x = s.getPad x := rfl

theorem Store.getPad_setPad_self (s : Store) (k : String) (p : PadStored) :
    (s.setPad k p).getPad k = some p := by
  simp [Store.getPad, Store.setPad, slookup]

/-- Well-formedness of the group section of the store: every group record
is stored under the key equal to its own _id field. Group records are
created this way by the group model, and the pad module relies on it when
it rewrites the record it just loaded. -/
def groupsWfB (s : Store) : Bool :=
  s.groups.all (fun kv => kv.2._id == kv.1)

theorem groupsWf_lookup {l : List (String × GroupRec)}
    (h : l.all (fun kv => kv.2._id == kv.1) = true)
    {k : String} {g : GroupRec} (hg : slookup l k = some g) : g._id = k := by
  induction l with
  | nil => cases hg
  | cons kv rest ih =>
    obtain ⟨k0, g0⟩ := kv
    simp only [List.all_cons, Bool.and_eq_true] at h
    obtain ⟨h0, hrest⟩ := h
    unfold slookup at hg
    by_cases hk : k0 = k
    · rw [if_pos hk] at hg
      cases hg
      exact hk ▸ (by simpa using h0)
    · rw [if_neg hk] at hg
      exact ih hrest hg

theorem Store.groupsWfB_setPad (s : Store) (k : String) (p : PadStored) :
    groupsWfB (s.setPad k p) = groupsWfB s := rfl

theorem Store.groupsWfB_delPad (s : Store) (k : String) :
    groupsWfB (s.delPad k) = groupsWfB s := rfl

/-- The empty store. -/
def emptyStore : Store := ⟨[], [], []⟩

/-- A create-call params object: name Doc, group g1, public visibility. -/
def createParams : PadParams :=
  ⟨.undefined, .str "Doc", .str "g1", .str "public",
   .undefined, .undefined, .undefined⟩

/-- Claim C1, counterexample: with an empty store (so the referenced group
g1 has no record), a create call does fail with NotFound, but the pad
record has already been written by pad.fn.set before pad.fn.indexGroups
looks the group up, so a record under the new pad key does persist; the
conjunction stated by the claim is therefore false at this input. -/
theorem claim_C1_cex :
    ¬ ((padSet createParams "p1" emptyStore).1 = .error .notFound ∧
       (padSet createParams "p1" emptyStore).2.getPad "p1" = none) := by
  intro h
  have h2 := h.2
  have he : (padSet createParams "p1" emptyStore).2.getPad "p1" =
      some ⟨"p1", assignProps createParams⟩ := rfl
  rw [he] at h2
  exact Option.noConfusion h2

/-- Claim C1 as amended: for every create call that passes the required
field check and the referenced-users check, when the referenced group id
has no record the operation fails with NotFound, but the pad record has
already been persisted and remains in the store under the new pad key:
the two-step write is not transactional. -/
theorem claim_C1_amended (params : PadParams) (newId : String) (s : Store)
    (hinit : addSetInitOk params = true)
    (hcreate : params._id.truthy = false)
    (husers : (assignProps params).users ≠ [] →
      checkMultiExist s ((assignProps params).users.map JSVal.keyStr) = true)
    (hgroup : s.getGroup params.group.keyStr = none) :
    padSet params newId s =
      (.error .notFound, s.setPad newId ⟨newId, assignProps params⟩) ∧
    (padSet params newId s).2.getPad newId =
      some ⟨newId, assignProps params⟩ := by
  have hstep : padSet params newId s =
      checkSet ⟨newId, assignProps params⟩ s := by
    unfold padSet
    simp [hinit, hcreate]
  have hfn : padFnSet ⟨newId, assignProps params⟩ s =
      (.error .notFound, s.setPad newId ⟨newId, assignProps params⟩) := by
    have hg : (s.setPad newId ⟨newId, assignProps params⟩).getGroup
        ((⟨newId, assignProps params⟩ : PadStored).props.group.keyStr) = none := hgroup
    unfold padFnSet indexGroups
    dsimp only
    rw [hg]
  have hcs : checkSet ⟨newId, assignProps params⟩ s =
      (.error .notFound, s.setPad newId ⟨newId, assignProps params⟩) := by
    unfold checkSet
    by_cases hu : (⟨newId, assignProps params⟩ : PadStored).props.users.length = 0
    · rw [if_neg (by simpa using hu)]
      exact hfn
    · have hne : (assignProps params).users ≠ [] := by
        intro hnil
        exact hu (by simp [hnil])
      rw [if_pos (by simpa using hu), if_pos (husers hne)]
      exact hfn
  refine ⟨hstep.trans hcs, ?_⟩
  rw [hstep, hcs]
  exact Store.getPad_setPad_self s newId ⟨newId, assignProps params⟩

/-- Witness for the amended claim C1 at the concrete scenario: an empty
store, a public create call; the call fails with NotFound and the new pad
record is found persisted under the new key. -/
theorem claim_C1_amended_witness :
    padSet createParams "p1" emptyStore =
      (.error .notFound, emptyStore.setPad "p1" ⟨"p1", assignProps createParams⟩) ∧
    (padSet createParams "p1" emptyStore).2.getPad "p1" =
      some ⟨"p1", assignProps createParams⟩ :=
  claim_C1_amended createParams "p1" emptyStore rfl rfl
    (fun h => absurd rfl h) rfl

theorem padFnSet_ok {p : PadStored} {s : Store} {q : PadStored} {s2 : Store}
    (h : padFnSet p s = (.ok q, s2)) :
    q = p ∧ indexGroups false p (s.setPad p._id p) = .ok s2 := by
  unfold padFnSet at h
  dsimp only at h
  cases hidx : indexGroups false p (s.setPad p._id p) with
  | error e => rw [hidx] at h; simp at h
  | ok s3 =>
    rw [hidx] at h
    injection h with h1 h2
    injection h1 with h1
    exact ⟨h1.symm, congrArg Except.ok h2⟩

theorem checkSet_ok {p : PadStored} {s : Store} {q : PadStored} {s2 : Store}
    (h : checkSet p s = (.ok q, s2)) :
    padFnSet p s = (.ok q, s2) := by
  unfold checkSet at h
  by_cases hl : p.props.users.length ≠ 0
  · rw [if_pos hl] at h
    cases hm : checkMultiExist s (p.props.users.map JSVal.keyStr) with
    | true => rw [hm] at h; simpa using h
    | false => rw [hm] at h; simp at h
  · rw [if_neg hl] at h
    exact h

theorem indexGroups_ok_pads {d : Bool} {p : PadStored} {s s2 : Store}
    (h : indexGroups d p s = .ok s2) : s2.pads = s.pads := by
  unfold indexGroups at h
  cases hg : s.getGroup p.props.group.keyStr with
  | none => rw [hg] at h; cases h
  | some g =>
    rw [hg] at h
    cases d with
    | true =>
      injection h with h1
      rw [← h1]
      rfl
    | false =>
      dsimp only at h
      by_cases hmem : p._id ∈ g.pads
      · rw [if_pos hmem] at h
        injection h with h1
        rw [← h1]
      · rw [if_neg hmem] at h
        injection h with h1
        rw [← h1]
        rfl

theorem indexGroups_add_ok {p : PadStored} {s s2 : Store}
    (hwf : groupsWfB s = true)
    (h : indexGroups false p s = .ok s2) :
    ∃ g, s2.getGroup p.props.group.keyStr = some g ∧ p._id ∈ g.pads := by
  unfold indexGroups at h
  cases hg : s.getGroup p.props.group.keyStr with
  | none => rw [hg] at h; cases h
  | some g =>
    rw [hg] at h
    dsimp only at h
    by_cases hmem : p._id ∈ g.pads
    · rw [if_pos hmem] at h
      injection h with h1
      rw [← h1]
      exact ⟨g, hg, hmem⟩
    · rw [if_neg hmem] at h
      injection h with h1
      have hid : g._id = p.props.group.keyStr := groupsWf_lookup hwf hg
      rw [← h1]
      refine ⟨⟨g._id, g.pads ++ [p._id]⟩, ?_, by simp⟩
      show slookup ((g._id, _) :: s.groups) p.props.group.keyStr = _
      rw [hid]
      exact slookup_cons_self _ _ _

theorem indexGroups_del_ok {p : PadStored} {s s2 : Store}
    (hwf : groupsWfB s = true)
    (h : indexGroups true p s = .ok s2) :
    ∀ g2, s2.getGroup p.props.group.keyStr = some g2 → p._id ∉ g2.pads := by
  unfold indexGroups at h
  cases hg : s.getGroup p.props.group.keyStr with
  | none => rw [hg] at h; cases h
  | some g =>
    rw [hg] at h
    dsimp only at h
    injection h with h1
    have hid : g._id = p.props.group.keyStr := groupsWf_lookup hwf hg
    intro g2 hg2
    rw [← h1] at hg2
    have hfound : slookup ((g._id, (⟨g._id, g.pads.filter (fun x => x ≠ p._id)⟩ : GroupRec)) :: s.groups) p.props.group.keyStr =
        some ⟨g._id, g.pads.filter (fun x => x ≠ p._id)⟩ := by
      rw [hid]
      exact slookup_cons_self _ _ _
    have hg2' : (⟨g._id, g.pads.filter (fun x => x ≠ p._id)⟩ : GroupRec) = g2 := by
      have := hfound.symm.trans hg2
      injection this
    rw [← hg2']
    simp [List.mem_filter]

theorem padSet_ok_checkSet {params : PadParams} {newId : String} {s : Store}
    {p : PadStored} {s' : Store}
    (h : padSet params newId s = (.ok p, s')) :
    checkSet p s = (.ok p, s') := by
  unfold padSet at h
  by_cases hinit : addSetInitOk params = true
  · rw [if_pos hinit] at h
    dsimp only at h
    by_cases hid : params._id.truthy = true
    · rw [if_pos hid] at h
      cases hp : s.getPad params._id.keyStr with
      | none => rw [hp] at h; simp at h
      | some q =>
        rw [hp] at h
        obtain ⟨hpq, _⟩ := padFnSet_ok (checkSet_ok h)
        rw [hpq]
        exact hpq ▸ h
    · rw [if_neg hid] at h
      obtain ⟨hpq, _⟩ := padFnSet_ok (checkSet_ok h)
      rw [hpq]
      exact hpq ▸ h
  · rw [if_neg hinit] at h
    simp at h

/-- Claim C2: in a well-formed store, after a successful create the owning
group record lists the new pad id in its pads index, and after a successful
delete the owning group record of the deleted pad no longer lists that pad
id. -/
theorem claim_C2 (s : Store) (hwf : groupsWfB s = true) :
    (∀ params newId p s', padSet params newId s = (.ok p, s') →
      ∃ g, s'.getGroup p.props.group.keyStr = some g ∧ p._id ∈ g.pads) ∧
    (∀ key p s', s.getPad key = some p → padDel key s = (.ok (), s') →
      ∀ g, s'.getGroup p.props.group.keyStr = some g → p._id ∉ g.pads) := by
  constructor
  · intro params newId p s' h
    obtain ⟨_, hidx⟩ := padFnSet_ok (checkSet_ok (padSet_ok_checkSet h))
    have hwf1 : groupsWfB (s.setPad p._id p) = true := by
      rw [Store.groupsWfB_setPad]; exact hwf
    exact indexGroups_add_ok hwf1 hidx
  · intro key p s' hget h
    unfold padDel at h
    rw [hget] at h
    dsimp only at h
    cases hidx : indexGroups true p (s.delPad key) with
    | error e => rw [hidx] at h; simp at h
    | ok s2 =>
      rw [hidx] at h
      injection h with h1 h2
      have hwf1 : groupsWfB (s.delPad key) = true := by
        rw [Store.groupsWfB_delPad]; exact hwf
      rw [← h2]
      exact indexGroups_del_ok hwf1 hidx

/-- An existing pad record in the base scenario store. -/
def pad0 : PadStored := ⟨"p0", ⟨.str "Doc0", .str "g1", [], .null, .null, .null⟩⟩

/-- The base scenario store: one pad p0, one group g1 indexing p0, one
registered user login u1. -/
def baseStore : Store :=
  ⟨[("p0", pad0)], [("g1", ⟨"g1", ["p0"]⟩)], ["u1"]⟩

/-- Witness for claim C2 at the concrete scenario: creating a public pad
in group g1 makes g1 list the new id p1, and deleting the pad p0 makes
the group record found under its group key stop listing p0. -/
theorem claim_C2_witness :
    (∃ g, (padSet createParams "p1" baseStore).2.getGroup
        ((⟨"p1", assignProps createParams⟩ : PadStored).props.group.keyStr) = some g ∧
        "p1" ∈ g.pads) ∧
    (∀ g, (padDel "p0" baseStore).2.getGroup pad0.props.group.keyStr = some g →
        pad0._id ∉ g.pads) :=
  ⟨(claim_C2 baseStore rfl).1 createParams "p1" ⟨"p1", assignProps createParams⟩
      (padSet createParams "p1" baseStore).2 rfl,
   (claim_C2 baseStore rfl).2 "p0" pad0 (padDel "p0" baseStore).2 rfl rfl⟩

/-- Claim C6: a create call with restricted visibility whose users list
contains a login string with no user record fails with the
referential-integrity error and leaves the store untouched: no pad record
is persisted and the owning group record, in particular its pads index,
is unchanged. -/
theorem claim_C6 (params : PadParams) (newId : String) (s : Store)
    (x : String) (l : List JSVal)
    (hinit : addSetInitOk params = true)
    (hcreate : params._id.truthy = false)
    (hvis : params.visibility = .str "restricted")
    (hu : params.users = .arr l)
    (hx : JSVal.str x ∈ l)
    (hmiss : s.userLogins.contains x = false) :
    padSet params newId s = (.error .refIntegrity, s) := by
  have hstep : padSet params newId s =
      checkSet ⟨newId, assignProps params⟩ s := by
    unfold padSet
    simp [hinit, hcreate]
  have husers : (assignProps params).users = l.filter JSVal.isString := by
    simp [assignProps, hvis, hu, JSVal.eqStr, JSVal.isArray, JSVal.stringEntries]
  have hxf : JSVal.str x ∈ l.filter JSVal.isString :=
    List.mem_filter.mpr ⟨hx, rfl⟩
  have hlen : (assignProps params).users.length ≠ 0 := by
    rw [husers]
    intro h0
    exact (List.ne_nil_of_mem hxf) (List.length_eq_zero.mp h0)
  have hin : x ∈ (assignProps params).users.map JSVal.keyStr := by
    rw [husers]
    exact List.mem_map.mpr ⟨JSVal.str x, hxf, rfl⟩
  have hall : checkMultiExist s ((assignProps params).users.map JSVal.keyStr)
      = false := by
    cases hc : checkMultiExist s ((assignProps params).users.map JSVal.keyStr)
    · rfl
    · have := List.all_eq_true.mp hc x hin
      rw [hmiss] at this
      cases this
  rw [hstep]
  unfold checkSet
  dsimp only
  rw [if_pos hlen, hall]
  simp

/-- A restricted create-call params object naming an unregistered login. -/
def restrictedParams : PadParams :=
  ⟨.undefined, .str "Doc2", .str "g1", .str "restricted",
   .arr [.str "nouser"], .undefined, .undefined⟩

/-- Witness for claim C6 at the concrete scenario of the specification:
group g1 exists, login nouser is unregistered, and the restricted create
call fails with the referential-integrity error leaving the store as it
was. -/
theorem claim_C6_witness :
    padSet restrictedParams "p2" baseStore = (.error .refIntegrity, baseStore) :=
  claim_C6 restrictedParams "p2" baseStore "nouser" [.str "nouser"]
    rfl rfl rfl rfl (List.mem_singleton.mpr rfl) rfl

/-- Claim C8: an update call (params with a truthy _id) on a missing pad
fails with NotFound before any write, leaving the store unchanged; on an
existing pad the call runs exactly the users-check-then-persist path with
the existing id preserved, and on success the stored record under that id
carries that id. -/
theorem claim_C8 (params : PadParams) (newId : String) (s : Store)
    (hinit : addSetInitOk params = true)
    (hid : params._id.truthy = true) :
    (s.getPad params._id.keyStr = none →
      padSet params newId s = (.error .notFound, s)) ∧
    (∀ q, s.getPad params._id.keyStr = some q →
      padSet params newId s =
        checkSet ⟨params._id.keyStr, assignProps params⟩ s ∧
      ∀ p' s', checkSet ⟨params._id.keyStr, assignProps params⟩ s = (.ok p', s') →
        s'.getPad params._id.keyStr =
          some ⟨params._id.keyStr, assignProps params⟩) := by
  constructor
  · intro hnone
    unfold padSet
    rw [if_pos hinit]
    dsimp only
    rw [if_pos hid, hnone]
  · intro q hq
    constructor
    · unfold padSet
      rw [if_pos hinit]
      dsimp only
      rw [if_pos hid, hq]
    · intro p' s' h
      obtain ⟨hp, hidx⟩ := padFnSet_ok (checkSet_ok h)
      have hpads : s'.pads =
          (s.setPad (⟨params._id.keyStr, assignProps params⟩ : PadStored)._id
            ⟨params._id.keyStr, assignProps params⟩).pads :=
        indexGroups_ok_pads hidx
      show slookup s'.pads params._id.keyStr = _
      rw [hpads]
      exact slookup_cons_self _ _ _

/-- An update-call params object for the existing pad p0. -/
def updParams : PadParams :=
  ⟨.str "p0", .str "Doc0b", .str "g1", .undefined,
   .undefined, .undefined, .undefined⟩

/-- An update-call params object for a pad id zz with no record. -/
def missParams : PadParams :=
  ⟨.str "zz", .str "Doc", .str "g1", .undefined,
   .undefined, .undefined, .undefined⟩

/-- Witness for claim C8 at the concrete scenario: updating the missing
pad zz fails with NotFound and leaves the store unchanged, updating the
existing pad p0 runs the users-check-then-persist path with id p0, and
the record stored under p0 after the successful update carries the id p0. -/
theorem claim_C8_witness :
    padSet missParams "pX" baseStore = (.error .notFound, baseStore) ∧
    padSet updParams "pX" baseStore =
      checkSet ⟨"p0", assignProps updParams⟩ baseStore ∧
    (checkSet ⟨"p0", assignProps updParams⟩ baseStore).2.getPad "p0" =
      some ⟨"p0", assignProps updParams⟩ :=
  ⟨(claim_C8 missParams "pX" baseStore rfl rfl).1 rfl,
   ((claim_C8 updParams "pX" baseStore rfl rfl).2 pad0 rfl).1,
   ((claim_C8 updParams "pX" baseStore rfl rfl).2 pad0 rfl).2
     ⟨"p0", assignProps updParams⟩
     (checkSet ⟨"p0", assignProps updParams⟩ baseStore).2 rfl⟩

/-- The in-memory state of the mail module: the payload-by-token and
expiry-by-token maps (JavaScript objects indexed by token string). -/
structure MailState where
  tokens : List (String × JSVal)
  ends : List (String × Int)

/-- JavaScript object indexing: a missing key reads as undefined. -/
def jsIndex (m : List (String × JSVal)) (k : String) : JSVal :=
  match slookup m k with
  | some v => v
  | none => .undefined

/-- Embedding of mail.genToken: a call with an undefined value throws the
params-required TypeError; otherwise a fresh cuid token (passed here as
tok) is bound to the value and to the expiry timestamp now plus duration
times sixty thousand milliseconds. The duration argument stands for the
configured token duration, read in the source as
parseFloat(conf.get(tokenDuration)) with default sixty, since the
configuration module is not among the source files. -/
def genToken (st : MailState) (value : JSVal) (tok : String) (now dur : Int) :
    Except Unit (String × MailState) :=
  match value with
  | .undefined => .error ()
  | _ =>
    .ok (tok, ⟨(tok, value) :: st.tokens, (tok, now + dur * 60 * 1000) :: st.ends⟩)

/-- Embedding of mail.isValidToken, faithful to the JavaScript expression
that conjoins the stored payload with the expiry comparison: the payload
read at the token (undefined when the token is unknown) is returned
directly when it is falsy; when it is truthy the boolean of the comparison
now strictly before the stored expiry is returned (a comparison against a
missing expiry entry is false). -/
def isValidToken (st : MailState) (tok : String) (now : Int) : JSVal :=
  let v := jsIndex st.tokens tok
  if v.truthy then
    .bool (match slookup st.ends tok with
           | some e => decide (now < e)
           | none => false)
  else v

/-- One issue request of a token run: the payload, the cuid-generated
token, the call timestamp and the configured duration in minutes. -/
structure IssueReq where
  payload : JSVal
  token : String
  ts : Int
  dur : Int

/-- The expiry timestamp a request computes. -/
def tokenEnd (r : IssueReq) : Int := r.ts + r.dur * 60 * 1000

/-- One genToken call of a run: a throwing call (undefined payload) leaves
the in-memory maps unchanged. -/
def issueStep (st : MailState) (r : IssueReq) : MailState :=
  match genToken st r.payload r.token r.ts r.dur with
  | .ok (_, st2) => st2
  | .error _ => st

/-- A run of genToken calls against the mail module state. -/
def runIssues (rs : List IssueReq) (st : MailState) : MailState :=
  rs.foldl issueStep st

/-- The initial mail module state: both maps empty. -/
def emptyMail : MailState := ⟨[], []⟩

/-- Claim C9: a defined but falsy payload (null, false, zero or the empty
string) is accepted by genToken, which returns a token, yet isValidToken
on that token reads as falsy even at a time strictly before the stored
expiry: the truthiness test on the stored payload short-circuits the
validity check. -/
theorem claim_C9 (st : MailState) (v : JSVal) (tok : String)
    (now dur checkTime : Int)
    (hdef : v ≠ .undefined) (hfalsy : v.truthy = false) :
    ∃ st2, genToken st v tok now dur = .ok (tok, st2) ∧
      (checkTime < now + dur * 60 * 1000 →
        (isValidToken st2 tok checkTime).truthy = false) := by
  refine ⟨⟨(tok, v) :: st.tokens, (tok, now + dur * 60 * 1000) :: st.ends⟩, ?_, ?_⟩
  · cases v with
    | undefined => exact absurd rfl hdef
    | null => rfl
    | bool b => rfl
    | num n => rfl
    | str s => rfl
    | arr l => rfl
  · intro _
    have hv : jsIndex ((tok, v) :: st.tokens) tok = v := by
      unfold jsIndex
      rw [slookup_cons_self]
    unfold isValidToken
    dsimp only
    rw [hv, hfalsy]
    simp [hfalsy]

/-- Witness for claim C9 at a concrete input: the payload false is
accepted at time zero with duration sixty, and the returned token is
immediately invalid although the expiry lies an hour ahead. -/
theorem claim_C9_witness :
    ∃ st2, genToken emptyMail (.bool false) "t1" 0 60 = .ok ("t1", st2) ∧
      ((0 : Int) < 0 + 60 * 60 * 1000 →
        (isValidToken st2 "t1" 0).truthy = false) :=
  claim_C9 emptyMail (.bool false) "t1" 0 60 0
    (fun h => JSVal.noConfusion h) rfl

/-- The mail state reached by issuing the payload false as token t1 at
time zero with duration sixty. -/
def falsyIssuedState : MailState :=
  ⟨[("t1", .bool false)], [("t1", 3600000)]⟩

/-- Claim C3, counterexample: after issuing the token t1 with the defined
payload false at time zero with duration sixty, the token t1 was returned
by genToken and the time fifty lies strictly before its stored expiry,
yet isValidToken does not read as true; the stated equivalence of
validity with known-and-unexpired is false at this input. -/
theorem claim_C3_cex :
    genToken emptyMail (.bool false) "t1" 0 60 = .ok ("t1", falsyIssuedState) ∧
    slookup falsyIssuedState.ends "t1" = some 3600000 ∧
    (50 : Int) < 3600000 ∧
    ¬ ((isValidToken falsyIssuedState "t1" 50).truthy = true) := by
  refine ⟨rfl, rfl, by norm_num, ?_⟩
  intro h
  cases h

theorem slookup_cons_ne {α : Type} (l : List (String × α)) (k t : String)
    (v : α) (h : k ≠ t) : slookup ((k, v) :: l) t = slookup l t := by
  simp [slookup, h]

theorem issueStep_lookup_ne (st : MailState) (r : IssueReq) (t : String)
    (h : r.token ≠ t) :
    slookup (issueStep st r).tokens t = slookup st.tokens t ∧
    slookup (issueStep st r).ends t = slookup st.ends t := by
  obtain ⟨pv, ptok, pts, pdur⟩ := r
  cases pv
  case undefined => exact ⟨rfl, rfl⟩
  all_goals exact ⟨slookup_cons_ne _ _ _ _ h, slookup_cons_ne _ _ _ _ h⟩

theorem runIssues_lookup_notMem (rs : List IssueReq) (t : String) :
    ∀ st : MailState, (∀ r ∈ rs, r.token ≠ t) →
    slookup (runIssues rs st).tokens t = slookup st.tokens t ∧
    slookup (runIssues rs st).ends t = slookup st.ends t := by
  induction rs with
  | nil => exact fun st _ => ⟨rfl, rfl⟩
  | cons a rest ih =>
    intro st h
    have ha : a.token ≠ t := h a (List.mem_cons_self a rest)
    have hrest : ∀ x ∈ rest, x.token ≠ t :=
      fun x hx => h x (List.mem_cons_of_mem a hx)
    have hstep := issueStep_lookup_ne st a t ha
    have hrec := ih (issueStep st a) hrest
    exact ⟨hrec.1.trans hstep.1, hrec.2.trans hstep.2⟩

theorem runIssues_lookup_mem (rs : List IssueReq) (t : String) :
    ∀ st : MailState, (rs.map IssueReq.token).Nodup →
    ∀ r ∈ rs, r.token = t → r.payload ≠ .undefined →
    slookup (runIssues rs st).tokens t = some r.payload ∧
    slookup (runIssues rs st).ends t = some (tokenEnd r) := by
  induction rs with
  | nil => intro st _ r hr; cases hr
  | cons a rest ih =>
    intro st hnd r hr htok hdef
    rw [List.map_cons, List.nodup_cons] at hnd
    obtain ⟨hnotin, hndrest⟩ := hnd
    rcases List.mem_cons.mp hr with heq | hmem
    · subst heq
      have hrest : ∀ x ∈ rest, x.token ≠ t := by
        intro x hx hxt
        apply hnotin
        rw [htok, ← hxt]
        exact List.mem_map_of_mem IssueReq.token hx
      have hrec := runIssues_lookup_notMem rest t (issueStep st r) hrest
      have hstep : slookup (issueStep st r).tokens t = some r.payload ∧
          slookup (issueStep st r).ends t = some (tokenEnd r) := by
        obtain ⟨pv, ptok, pts, pdur⟩ := r
        subst htok
        cases pv
        case undefined => exact absurd rfl hdef
        all_goals exact ⟨slookup_cons_self _ _ _, slookup_cons_self _ _ _⟩
      exact ⟨hrec.1.trans hstep.1, hrec.2.trans hstep.2⟩
    · have ha : a.token ≠ t := by
        intro hat
        apply hnotin
        rw [hat, ← htok]
        exact List.mem_map_of_mem IssueReq.token hmem
      exact ih (issueStep st a) hndrest r hmem htok hdef

theorem runIssues_lookup_mem_undef (rs : List IssueReq) (t : String) :
    ∀ st : MailState, (rs.map IssueReq.token).Nodup →
    ∀ r ∈ rs, r.token = t → r.payload = .undefined →
    slookup st.tokens t = none →
    slookup (runIssues rs st).tokens t = none := by
  induction rs with
  | nil => intro st _ r hr; cases hr
  | cons a rest ih =>
    intro st hnd r hr htok hundef hst
    rw [List.map_cons, List.nodup_cons] at hnd
    obtain ⟨hnotin, hndrest⟩ := hnd
    rcases List.mem_cons.mp hr with heq | hmem
    · subst heq
      have hrest : ∀ x ∈ rest, x.token ≠ t := by
        intro x hx hxt
        apply hnotin
        rw [htok, ← hxt]
        exact List.mem_map_of_mem IssueReq.token hx
      have hstep : issueStep st r = st := by
        obtain ⟨pv, ptok, pts, pdur⟩ := r
        cases hundef
        rfl
      have hrec := runIssues_lookup_notMem rest t (issueStep st r) hrest
      rw [show runIssues (r :: rest) st = runIssues rest (issueStep st r) from rfl]
      rw [hrec.1, hstep]
      exact hst
    · have ha : a.token ≠ t := by
        intro hat
        apply hnotin
        rw [hat, ← htok]
        exact List.mem_map_of_mem IssueReq.token hmem
      have hstep := issueStep_lookup_ne st a t ha
      exact ih (issueStep st a) hndrest r hmem htok hundef (hstep.1.trans hst)

/-- Claim C3 as amended: over any run of genToken calls with pairwise
distinct generated tokens starting from the empty mail state, isValidToken
reads as true exactly when the token was issued with a truthy payload and
the current time lies strictly before that call's expiry timestamp; in
particular a never-issued token always reads as falsy, and issued tokens
whose payload is falsy read as falsy even before expiry. -/
theorem claim_C3_amended (rs : List IssueReq) (t : String) (now : Int)
    (hnd : (rs.map IssueReq.token).Nodup) :
    (isValidToken (runIssues rs emptyMail) t now).truthy = true ↔
      ∃ r ∈ rs, r.token = t ∧ r.payload.truthy = true ∧ now < tokenEnd r := by
  by_cases hex : ∃ r ∈ rs, r.token = t
  · obtain ⟨r, hmem, htok⟩ := hex
    have huniq : ∀ x ∈ rs, x.token = t → x = r := by
      intro x hx hxt
      exact List.inj_on_of_nodup_map hnd hx hmem (by rw [hxt, htok])
    by_cases hdef : r.payload = .undefined
    · have hnone := runIssues_lookup_mem_undef rs t emptyMail hnd r hmem htok hdef rfl
      constructor
      · intro hval
        exfalso
        simp [isValidToken, jsIndex, hnone, JSVal.truthy] at hval
      · rintro ⟨x, hx, hxt, hxp, _⟩
        rw [huniq x hx hxt, hdef] at hxp
        simp [JSVal.truthy] at hxp
    · have hlk := runIssues_lookup_mem rs t emptyMail hnd r hmem htok hdef
      have hval : isValidToken (runIssues rs emptyMail) t now =
          (if r.payload.truthy = true then .bool (decide (now < tokenEnd r))
           else r.payload) := by
        simp only [isValidToken, jsIndex, hlk.1, hlk.2]
      rw [hval]
      by_cases hp : r.payload.truthy = true
      case neg =>
        have hp2 : r.payload.truthy = false := Bool.eq_false_iff.mpr hp
        rw [if_neg hp]
        constructor
        · intro h
          rw [hp2] at h
          cases h
        · rintro ⟨x, hx, hxt, hxp, _⟩
          rw [huniq x hx hxt, hp2] at hxp
          cases hxp
      case pos =>
        rw [if_pos hp]
        constructor
        · intro h
          refine ⟨r, hmem, htok, hp, ?_⟩
          have hd : decide (now < tokenEnd r) = true := by
            simpa [JSVal.truthy] using h
          exact of_decide_eq_true hd
        · rintro ⟨x, hx, hxt, _, hlt⟩
          rw [huniq x hx hxt] at hlt
          show (JSVal.bool (decide (now < tokenEnd r))).truthy = true
          simp [JSVal.truthy]
          exact hlt
  · push_neg at hex
    have hlk := runIssues_lookup_notMem rs t emptyMail hex
    have hnone : slookup (runIssues rs emptyMail).tokens t = none := hlk.1
    constructor
    · intro hval
      exfalso
      simp [isValidToken, jsIndex, hnone, JSVal.truthy] at hval
    · rintro ⟨x, hx, hxt, _, _⟩
      exact absurd hxt (hex x hx)

/-- Witness for the amended claim C3 at a concrete run: issuing t1 with a
truthy payload and t2 with the falsy payload zero, token t1 is valid
before its expiry, and exactly the requests with truthy payload and
unexpired timestamp are recognized. -/
theorem claim_C3_amended_witness :
    (isValidToken (runIssues [⟨.str "data", "t1", 0, 60⟩, ⟨.num 0, "t2", 0, 60⟩]
        emptyMail) "t1" 50).truthy = true ↔
      ∃ r ∈ [(⟨.str "data", "t1", 0, 60⟩ : IssueReq), ⟨.num 0, "t2", 0, 60⟩],
        r.token = "t1" ∧ r.payload.truthy = true ∧ (50 : Int) < tokenEnd r :=
  claim_C3_amended [⟨.str "data", "t1", 0, 60⟩, ⟨.num 0, "t2", 0, 60⟩] "t1" 50
    (by simp)

/-- A stored salted password: the salt and the salted hash. -/
structure PwdRec where
  salt : String
  hash : String
deriving Repr, DecidableEq

/-- A user record as the credential verifier reads it; the password field
is optional so that absence or redaction of the field is expressible
(stored records always carry it). -/
structure UserRec where
  login : String
  password : Option PwdRec
deriving Repr, DecidableEq

/-- Modelled from the spec: user.fn.hashPassword (model/user.js is not
among the source files) is a deterministic keyed hash: the same salt and
password always yield the same hash; the embedding uses an explicit
injective-by-construction encoding. -/
def hashPassword (salt password : String) : String :=
  salt ++ "#" ++ password

/-- The outcome of one auth.fn.localFn call, as delivered through its
callback: the NotFound error from user.get on an unknown login, the
authentication error password is not correct, or success carrying the
user record; thrownTypeError covers the JavaScript crash on a stored
record with no password field, which well-formed stores never contain. -/
inductive AuthResult where
  | errNotFound
  | errAuthentication
  | ok (u : UserRec)
  | thrownTypeError
deriving Repr, DecidableEq

/-- Embedding of auth.fn.localFn composed with auth.fn.isPasswordValid on
the non-failing hashing path: user.get (modelled from the spec: NotFound
when the login has no record) then the comparison of the salted hash of
the given password against the stored hash; on match the callback gets
the stored user record itself, unmodified. -/
def localFn (db : List (String × UserRec)) (login password : String) :
    AuthResult :=
  match slookup db login with
  | none => .errNotFound
  | some u =>
    match u.password with
    | none => .thrownTypeError
    | some pw =>
      if hashPassword pw.salt password = pw.hash then .ok u
      else .errAuthentication

/-- The stored record of user alice with the correct password pw. -/
def alice : UserRec := ⟨"alice", some ⟨"s1", hashPassword "s1" "pw"⟩⟩

/-- A user database holding only alice. -/
def authDb : List (String × UserRec) := [("alice", alice)]

/-- Claim C7, counterexample: with the correct password the verifier
succeeds, but the record it returns is the stored record with its
password field still present, not absent or redacted; the redaction to
the caller-facing response happens in the API layer, outside
verifyCredentials. -/
theorem claim_C7_cex :
    localFn authDb "alice" "pw" = .ok alice ∧
    alice.password = some ⟨"s1", hashPassword "s1" "pw"⟩ :=
  ⟨rfl, rfl⟩

/-- Claim C7 as amended: the three cases are disjoint as claimed, except
that success returns the stored user record unchanged, password field
included: an unknown login fails with NotFound whatever the password; a
known login whose salted password hash differs from the stored hash fails
with the authentication error, a failure kind distinct from NotFound; a
known login with the matching password succeeds with the stored record,
its password field still present. -/
theorem claim_C7_amended (db : List (String × UserRec))
    (login password : String) :
    (slookup db login = none → localFn db login password = .errNotFound) ∧
    (∀ u pw, slookup db login = some u → u.password = some pw →
      hashPassword pw.salt password ≠ pw.hash →
      localFn db login password = .errAuthentication) ∧
    (∀ u pw, slookup db login = some u → u.password = some pw →
      hashPassword pw.salt password = pw.hash →
      localFn db login password = .ok u ∧ u.password = some pw) ∧
    (AuthResult.errAuthentication ≠ AuthResult.errNotFound) := by
  refine ⟨?_, ?_, ?_, by intro h; cases h⟩
  · intro hnone
    unfold localFn
    rw [hnone]
  · intro u pw hu hpw hne
    unfold localFn
    rw [hu]
    dsimp only
    rw [hpw]
    dsimp only
    rw [if_neg hne]
  · intro u pw hu hpw heq
    refine ⟨?_, hpw⟩
    unfold localFn
    rw [hu]
    dsimp only
    rw [hpw]
    dsimp only
    rw [if_pos heq]

/-- Witness for the amended claim C7 at the concrete database: an unknown
login bob fails with NotFound, alice with the wrong password fails with
the authentication error, and alice with the correct password succeeds
with the stored record, password field included. -/
theorem claim_C7_amended_witness :
    localFn authDb "bob" "x" = .errNotFound ∧
    localFn authDb "alice" "wrong" = .errAuthentication ∧
    (localFn authDb "alice" "pw" = .ok alice ∧
      alice.password = some ⟨"s1", hashPassword "s1" "pw"⟩) :=
  ⟨(claim_C7_amended authDb "bob" "x").1 rfl,
   (claim_C7_amended authDb "alice" "wrong").2.1 alice
     ⟨"s1", hashPassword "s1" "pw"⟩ rfl rfl (by decide),
   (claim_C7_amended authDb "alice" "pw").2.2.1 alice
     ⟨"s1", hashPassword "s1" "pw"⟩ rfl rfl rfl⟩

/-- One callback invocation observed from auth.fn.isPasswordValid: either
the propagated error message or the null-and-boolean result. -/
inductive CbCall where
  | errCall (msg : String)
  | okCall (valid : Bool)
deriving Repr, DecidableEq

/-- The observable outcome of one auth.fn.isPasswordValid call: the list
of callback invocations in order, and whether the call then throws a
TypeError. -/
structure IsPasswordValidRun where
  calls : List CbCall
  thrownTypeError : Bool
deriving Repr, DecidableEq

/-- Embedding of auth.fn.isPasswordValid against a given outcome of the
hashing step (the user record field read u.password.hash is passed as
storedHash). The error branch of the source reads if err then
callback(err) with no return, so after invoking the callback with the
error the function falls through to the comparison res.hash, where res
is undefined under the error-first callback convention, and that field
access throws a TypeError. -/
def isPasswordValidRun (storedHash : String) (hres : Except String String) :
    IsPasswordValidRun :=
  match hres with
  | .error e => ⟨[.errCall e], true⟩
  | .ok h =>
    if h = storedHash then ⟨[.okCall true], false⟩
    else ⟨[.okCall false], false⟩

/-- Claim C10: when the hashing step fails, isPasswordValid does invoke
its callback exactly once with exactly that error, but contrary to the
claim it does not stop there: missing the return, it falls through to
the comparison and throws a TypeError reading the hash field of the
absent result. The theorem evaluates the embedded code on the failing
path, exhibiting the divergence. -/
theorem claim_C10_bug (storedHash : String) (e : String) :
    (isPasswordValidRun storedHash (.error e)).calls = [.errCall e] ∧
    (isPasswordValidRun storedHash (.error e)).thrownTypeError = true :=
  ⟨rfl, rfl⟩
